import Mathlib

/-!
Shallow embedding of the TabSplit store (`TabSplit.store` in the repository).

The store is a stateful JS object; it is embedded here as pure functions over
an explicit `Store` value.  JS numbers are modelled as `ℚ` (the reference
behavior uses exact equality on them, e.g. `distributionSum != 1`), JS string
enums (`"status_active"`, ...) as the inductive `Status`, the `tabGroups`
object as an insertion-ordered association list, and the `_listeners` `Set`
(which is set to `null` on destruction) as an `Option` of a duplicate-free
list of opaque listener identities.  Thrown strings become `Except.error`;
a batch aborted by a `throw` is reported through the `failed` flag of
`UpdateResult` (mirroring the observable `console.error` path of `update`).
-/

namespace TabSplit

-- Rational arithmetic and rational literals are irreducible by default,
-- which would block concrete evaluation of the store operations below;
-- restore the usual reducibility for this development.
attribute [local semireducible] Rat.add Rat.ofScientific

/-- Status enum: the JS strings "status_active", "status_inactive",
"status_destroyed". -/
inductive Status where
  | status_active
  | status_inactive
  | status_destroyed
deriving DecidableEq, Repr

/-- Tab member of a group: `{ linkedPanel, col, distribution }`. -/
structure Tab where
  linkedPanel : String
  col : ℚ
  distribution : ℚ
deriving DecidableEq, Repr

/-- One group of split tabs as stored in `_state.tabGroups` (with its id). -/
structure TabGroup where
  id : String
  color : String
  layout : String
  tabs : List Tab
deriving DecidableEq, Repr

/-- The value passed to the `add_tab_group` action: a proposed group, which
carries no id yet (`_addTabGroup` assigns one). -/
structure TabGroupSpec where
  color : String
  layout : String
  tabs : List Tab
deriving DecidableEq, Repr

/-- The `_state` object of the store. -/
structure State where
  status : Status
  windowWidth : ℚ
  selectedLinkedPanel : String
  tabGroupIds : List String
  tabGroups : List (String × TabGroup)
deriving DecidableEq, Repr

/-- The host-adapter capability object (`TabSplit.utils`).  The store only
uses the truthiness of both lookups, so they are embedded as `Bool`-valued
functions. -/
structure Utils where
  getTabByLinkedPanel : String → Bool
  getTabGroupByLinkedPanel : String → State → Bool

/-- `TAB_GROUP_ID_PREFIX` constant of the store. -/
def TAB_GROUP_ID_PREFIX : String := "tabsplit-tab-group-id-"

/-- `VALID_LAYOUTS` constant of the store. -/
def VALID_LAYOUTS : List String := ["column_split"]

/-- The id assigned from a counter value: `this.TAB_GROUP_ID_PREFIX +
this._tabGroupIdCount` (JS number-to-string is decimal, i.e. `Nat.repr`). -/
def mkTabGroupId (n : Nat) : String := TAB_GROUP_ID_PREFIX ++ Nat.repr n

/-- The whole store: `_state`, `_tabGroupIdCount`, `_listeners`, `_utils`.
`listeners = none` models the JS `null` after destruction. -/
structure Store where
  utils : Utils
  state : State
  tabGroupIdCount : Nat
  listeners : Option (List Nat)

/-- The fresh state built by `_resetState`. -/
def _resetState : State :=
  { status := Status.status_inactive
  , windowWidth := -1
  , selectedLinkedPanel := ""
  , tabGroupIds := []
  , tabGroups := [] }

/-- `update` assigns `_state = { status: "status_destroyed" }` to clear every
field but the status; a JS property that became absent is modelled by the
empty/default value of the field (these fields are never read again, since
every later action fails on the destroyed-status guard). -/
def destroyedClearedState : State :=
  { status := Status.status_destroyed
  , windowWidth := -1
  , selectedLinkedPanel := ""
  , tabGroupIds := []
  , tabGroups := [] }

/-- `init({utils})`: stores the utils, resets the state, zeroes the id
counter and starts from an empty listener set. -/
def Store.init (u : Utils) : Store :=
  { utils := u
  , state := _resetState
  , tabGroupIdCount := 0
  , listeners := some [] }

/-- `_copy`: `JSON.parse(JSON.stringify(x))` — a deep copy, which on the
immutable values of the embedding is the identity. -/
def _copy (s : State) : State := s

/-- `getState()` returns `_copy(this._state)`. -/
def Store.getState (st : Store) : State := _copy st.state

/-- `_isValidTab(tab)`: col must be in [0, 1], distribution strictly inside
(0, 1), and the linkedPanel must resolve through the host adapter. -/
def _isValidTab (u : Utils) (tab : Tab) : Bool :=
  if (tab.col < 0 || tab.col > 1)
      || (tab.distribution ≤ 0 || tab.distribution ≥ 1)
      || !(u.getTabByLinkedPanel tab.linkedPanel) then
    false
  else
    true

/-- The per-tab validation loop of `_addTabGroup`: walks the tabs with the
running array index `i`, the `seenPanels` accumulator and the running
`distributionSum`; returns the final sum or the first thrown message. -/
def checkTabs (u : Utils) (s : State) :
    List Tab → Nat → List String → ℚ → Except String ℚ
  | [], _, _, sum => Except.ok sum
  | t :: rest, i, seenPanels, sum =>
    if t.col ≠ (i : ℚ) then
      Except.error ("The tab with linkedPanel of " ++ t.linkedPanel ++
        " has array position different from column position")
    else if !(_isValidTab u t) then
      Except.error ("The tab with linkedPanel of " ++ t.linkedPanel ++
        " being added is invalid")
    else if u.getTabGroupByLinkedPanel t.linkedPanel s then
      Except.error ("The tab with linkedPanel of " ++ t.linkedPanel ++
        " being added is already split")
    else if seenPanels.contains t.linkedPanel then
      Except.error ("Cannot add the tab with linkedPanel of " ++ t.linkedPanel ++
        " twice in one tab group")
    else
      checkTabs u s rest (i + 1) (seenPanels ++ [t.linkedPanel])
        (sum + t.distribution)

/-- JS object property assignment `tabGroups[k] = v`: replaces in place when
the key exists, otherwise appends (JS objects keep insertion order). -/
def setKey (m : List (String × TabGroup)) (k : String) (v : TabGroup) :
    List (String × TabGroup) :=
  if m.any (fun p => p.1 = k) then
    m.map (fun p => if p.1 = k then (k, v) else p)
  else
    m ++ [(k, v)]

/-- `_addTabGroup(newTabGroup)`: validates layout, color, length, each tab
(via `checkTabs`) and the distribution sum, then commits a copy of the group
under the freshly generated id and appends the id to `tabGroupIds`.  Returns
the new id together with the updated state and id counter. -/
def _addTabGroup (u : Utils) (s : State) (cnt : Nat) (newTabGroup : TabGroupSpec) :
    Except String (String × State × Nat) :=
  if !(VALID_LAYOUTS.contains newTabGroup.layout) then
    Except.error ("Invalid split layout: " ++ newTabGroup.layout)
  else if newTabGroup.color = "" then
    Except.error "Lack the color property"
  else if newTabGroup.tabs.length ≠ 2 then
    Except.error "Unexpected tabs length"
  else
    match checkTabs u s newTabGroup.tabs 0 [] 0 with
    | Except.error e => Except.error e
    | Except.ok distributionSum =>
      if distributionSum ≠ 1 then
        Except.error "Expect the sum of tabs distributions to be 1"
      else
        let newId := mkTabGroupId cnt
        let newGroup : TabGroup :=
          { id := newId
          , color := newTabGroup.color
          , layout := newTabGroup.layout
          , tabs := newTabGroup.tabs }
        Except.ok (newId,
          { s with tabGroups := setKey s.tabGroups newId newGroup
                 , tabGroupIds := s.tabGroupIds ++ [newId] },
          cnt + 1)

/-- `_removeTabGroup(id)` has an empty body: it performs no state change. -/
def _removeTabGroup (s : State) (_id : String) : State := s

/-- `_updateTabDistributions(id, distributions)` has an empty body: it
performs no state change. -/
def _updateTabDistributions (s : State) (_id : String) (_distributions : List ℚ) :
    State := s

/-- State update actions accepted by `update` (the `{type, value}` objects).
`unknown_type` stands for any unrecognized `type` string, handled by the
`default` branch. -/
inductive Action where
  | set_active
  | set_inactive
  | set_destroyed
  | update_window_width (v : ℚ)
  | update_selected_linkedPanel (v : String)
  | add_tab_group (v : TabGroupSpec)
  | remove_tab_group (v : String)
  | update_tab_distibutions (id : String) (distributions : List ℚ)
  | unknown_type (t : String)
deriving DecidableEq, Repr

/-- The mutable locals of one `update` call (the `this._state` and
`this._tabGroupIdCount` being mutated, plus `added`, `removed`, `updated`,
`dirty`). -/
structure DispatchState where
  state : State
  tabGroupIdCount : Nat
  added : List String
  removed : List String
  updated : List String
  dirty : Bool
deriving DecidableEq, Repr

/-- The body of the `for` loop of `update` for one action: the
destroyed-status guard first, then the `switch` on the action type.
Mutations become a new `DispatchState`; a `throw` becomes `Except.error`. -/
def applyAction (u : Utils) (l : DispatchState) (action : Action) :
    Except String DispatchState :=
  if l.state.status = Status.status_destroyed then
    Except.error
      "The current status is destroyed, please init again before updating any state"
  else
    match action with
    | Action.set_active =>
      if l.state.status ≠ Status.status_active then
        Except.ok { l with
          state := { l.state with status := Status.status_active }, dirty := true }
      else
        Except.error "Set active on the status that is already active"
    | Action.set_inactive =>
      if l.state.status = Status.status_active then
        Except.ok { l with
          state := { l.state with status := Status.status_inactive }, dirty := true }
      else
        Except.error "Set inactive on the status that is not active"
    | Action.set_destroyed =>
      Except.ok { l with
        state := { l.state with status := Status.status_destroyed }, dirty := true }
    | Action.update_window_width v =>
      if v ≤ 0 then
        Except.error "Invalid window width"
      else if v ≠ l.state.windowWidth then
        Except.ok { l with
          state := { l.state with windowWidth := v }, dirty := true }
      else
        Except.ok l
    | Action.update_selected_linkedPanel v =>
      if !(u.getTabByLinkedPanel v) then
        Except.error ("Unknown selected linkedPanel of " ++ v)
      else
        Except.ok { l with
          state := { l.state with selectedLinkedPanel := v }, dirty := true }
    | Action.add_tab_group v =>
      match _addTabGroup u l.state l.tabGroupIdCount v with
      | Except.error e => Except.error e
      | Except.ok (newId, s, cnt) =>
        Except.ok { l with
          state := s, tabGroupIdCount := cnt,
          added := l.added ++ [newId], dirty := true }
    | Action.remove_tab_group v =>
      Except.ok { l with
        state := _removeTabGroup l.state v,
        removed := l.removed ++ [v], dirty := true }
    | Action.update_tab_distibutions id distributions =>
      Except.ok { l with
        state := _updateTabDistributions l.state id distributions,
        updated := l.updated ++ [id], dirty := true }
    | Action.unknown_type t =>
      Except.error ("Unknow action type of " ++ t)

/-- The dispatch loop of `update`: applies the actions in order, and on the
first failure stops, returning the state accumulated so far with the failure
flag set (the JS `catch` logs and returns). -/
def runActions (u : Utils) : List Action → DispatchState → DispatchState × Bool
  | [], l => (l, false)
  | a :: rest, l =>
    match applyAction u l a with
    | Except.error _ => (l, true)
    | Except.ok next => runActions u rest next

/-- The initial `DispatchState` of one `update` call. -/
def initDispatch (st : Store) : DispatchState :=
  { state := st.state
  , tabGroupIdCount := st.tabGroupIdCount
  , added := []
  , removed := []
  , updated := []
  , dirty := false }

/-- The change-notification batch delivered at the end of a dirty `update`
call: the three id lists, plus the identities of the listeners the `forEach`
invoked (`onStateChange` is called once per member). -/
structure Notification where
  recipients : List Nat
  added : List String
  removed : List String
  updated : List String
deriving DecidableEq, Repr

/-- The observable outcome of one `update` call: the store afterwards, the
notification (if the dirty branch ran) and whether the batch aborted in the
`catch` branch. -/
structure UpdateResult where
  store : Store
  notification : Option Notification
  failed : Bool

/-- `update(...actions)`: run the dispatch loop; on failure return with no
notification; otherwise, when dirty, run the status-triggered resets
(`_resetState` on inactive, the clearing assignment on destroyed), notify
every listener once, and finally drop the listener set if destroyed. -/
def Store.update (st : Store) (actions : List Action) : UpdateResult :=
  match runActions st.utils actions (initDispatch st) with
  | (l, true) =>
    { store := { st with state := l.state, tabGroupIdCount := l.tabGroupIdCount }
    , notification := none
    , failed := true }
  | (l, false) =>
    if l.dirty then
      let finalState :=
        if l.state.status = Status.status_inactive then _resetState
        else if l.state.status = Status.status_destroyed then destroyedClearedState
        else l.state
      let remaining :=
        if finalState.status = Status.status_destroyed then none else st.listeners
      { store := { st with state := finalState
                         , tabGroupIdCount := l.tabGroupIdCount
                         , listeners := remaining }
      , notification := some
          { recipients := st.listeners.getD []
          , added := l.added
          , removed := l.removed
          , updated := l.updated }
      , failed := false }
    else
      { store := { st with state := l.state, tabGroupIdCount := l.tabGroupIdCount }
      , notification := none
      , failed := false }

/-- `subscribe(listener)`: adds the listener when absent.  When `_listeners`
is `null` (only after destruction) the JS code throws a `TypeError` without
changing any state; that case is modelled as returning the store unchanged. -/
def Store.subscribe (st : Store) (listener : Nat) : Store :=
  match st.listeners with
  | some ls =>
    if !(ls.contains listener) then { st with listeners := some (ls ++ [listener]) }
    else st
  | none => st

/-- `unsubscribe(listener)`: removes the listener when present; same
`null`-listener remark as `subscribe`. -/
def Store.unsubscribe (st : Store) (listener : Nat) : Store :=
  match st.listeners with
  | some ls =>
    if ls.contains listener then { st with listeners := some (ls.erase listener) }
    else st
  | none => st

/-! ### Injectivity of the generated tab-group ids

The id generator concatenates a fixed literal with the decimal numeral of the
counter (`Nat.repr`), so id freshness reduces to `Nat.repr` being injective,
proved here through `Nat.digits`. -/

lemma toDigitsCore_append_acc (fuel : Nat) :
    ∀ (n : Nat) (ds : List Char),
      Nat.toDigitsCore 10 fuel n ds = Nat.toDigitsCore 10 fuel n [] ++ ds := by
  induction fuel with
  | zero => intro n ds; simp [Nat.toDigitsCore]
  | succ f ih =>
    intro n ds
    simp only [Nat.toDigitsCore]
    by_cases h : n / 10 = 0
    · simp [h]
    · simp only [h, if_neg, ite_false]
      rw [ih (n / 10) (Nat.digitChar (n % 10) :: ds),
        ih (n / 10) [Nat.digitChar (n % 10)], List.append_assoc]
      rfl

lemma toDigitsCore_eq_digits (n : Nat) :
    0 < n → ∀ fuel, n < fuel →
      Nat.toDigitsCore 10 fuel n [] =
        ((Nat.digits 10 n).map Nat.digitChar).reverse := by
  induction n using Nat.strong_induction_on with
  | _ n ih =>
    intro hn fuel hfuel
    match fuel, hfuel with
    | fuel + 1, hfuel =>
      rw [Nat.digits_def' (by norm_num : (1 : Nat) < 10) hn]
      simp only [Nat.toDigitsCore]
      by_cases h : n / 10 = 0
      · simp [h]
      · have hpos : 0 < n / 10 := Nat.pos_of_ne_zero h
        have hlt : n / 10 < n := Nat.div_lt_self hn (by norm_num)
        have hfl : n / 10 < fuel := by omega
        simp only [h, ite_false]
        rw [toDigitsCore_append_acc, ih (n / 10) hlt hpos fuel hfl,
          List.map_cons, List.reverse_cons]

lemma toDigits_eq_digits (n : Nat) (hn : 0 < n) :
    Nat.toDigits 10 n = ((Nat.digits 10 n).map Nat.digitChar).reverse :=
  toDigitsCore_eq_digits n hn (n + 1) (Nat.lt_succ_self n)

lemma digitChar_injOn :
    ∀ a < 10, ∀ b < 10, Nat.digitChar a = Nat.digitChar b → a = b := by decide

lemma map_digitChar_inj :
    ∀ l₁ l₂ : List Nat, (∀ d ∈ l₁, d < 10) → (∀ d ∈ l₂, d < 10) →
      l₁.map Nat.digitChar = l₂.map Nat.digitChar → l₁ = l₂ := by
  intro l₁
  induction l₁ with
  | nil => intro l₂ _ _ h; cases l₂ <;> simp_all
  | cons a t ih =>
    intro l₂ h₁ h₂ h
    cases l₂ with
    | nil => simp at h
    | cons b t₂ =>
      simp only [List.map_cons, List.cons.injEq] at h
      have hab : a = b :=
        digitChar_injOn a (h₁ a (by simp)) b (h₂ b (by simp)) h.1
      subst hab
      rw [ih t₂ (fun d hd => h₁ d (by simp [hd])) (fun d hd => h₂ d (by simp [hd]))
        h.2]

lemma toDigits_ten_inj {n m : Nat} (h : Nat.toDigits 10 n = Nat.toDigits 10 m) :
    n = m := by
  have hzero : ∀ k : Nat, 0 < k → Nat.toDigits 10 k ≠ ['0'] := by
    intro k hk hc
    rw [toDigits_eq_digits k hk] at hc
    have hmap : (Nat.digits 10 k).map Nat.digitChar = ['0'] := by
      have := congrArg List.reverse hc
      simpa using this
    have hdig : Nat.digits 10 k = [0] := by
      have h0 : ([0] : List Nat).map Nat.digitChar = ['0'] := rfl
      exact map_digitChar_inj (Nat.digits 10 k) [0]
        (fun d hd => Nat.digits_lt_base (by norm_num) hd)
        (by intro d hd; simp at hd; omega) (hmap.trans h0.symm)
    have hofd := Nat.ofDigits_digits 10 k
    rw [hdig] at hofd
    simp [Nat.ofDigits] at hofd
    omega
  rcases Nat.eq_zero_or_pos n with hn | hn
  · rcases Nat.eq_zero_or_pos m with hm | hm
    · omega
    · subst hn
      exact absurd h.symm (hzero m hm)
  · rcases Nat.eq_zero_or_pos m with hm | hm
    · subst hm
      exact absurd h (hzero n hn)
    · rw [toDigits_eq_digits n hn, toDigits_eq_digits m hm] at h
      have hmap : (Nat.digits 10 n).map Nat.digitChar =
          (Nat.digits 10 m).map Nat.digitChar := by
        have := congrArg List.reverse h
        simpa using this
      have hdig : Nat.digits 10 n = Nat.digits 10 m :=
        map_digitChar_inj _ _
          (fun d hd => Nat.digits_lt_base (by norm_num) hd)
          (fun d hd => Nat.digits_lt_base (by norm_num) hd) hmap
      exact Nat.digits.injective 10 hdig

lemma Nat_repr_inj {n m : Nat} (h : Nat.repr n = Nat.repr m) : n = m := by
  apply toDigits_ten_inj
  have hd := congrArg String.data h
  simpa [Nat.repr, List.asString] using hd

lemma mkTabGroupId_inj {n m : Nat} (h : mkTabGroupId n = mkTabGroupId m) :
    n = m := by
  apply Nat_repr_inj
  have hd := congrArg String.data h
  simp only [mkTabGroupId, String.data_append] at hd
  exact String.ext (List.append_cancel_left hd)

/-! ### Specification predicates and inversion lemmas for the validation code -/

/-- Well-formedness of one stored tab group: exactly two tabs, each
distribution strictly inside (0, 1), distributions summing to exactly 1, and
pairwise distinct member panels. -/
def GroupWF (g : TabGroup) : Prop :=
  g.tabs.length = 2 ∧
  (∀ t ∈ g.tabs, 0 < t.distribution ∧ t.distribution < 1) ∧
  (g.tabs.map Tab.distribution).sum = 1 ∧
  (g.tabs.map Tab.linkedPanel).Nodup

/-- No panel id occurs in two distinct stored groups. -/
def PanelsDisjoint (gs : List (String × TabGroup)) : Prop :=
  gs.Pairwise (fun a b => ∀ t ∈ a.2.tabs, ∀ r ∈ b.2.tabs, t.linkedPanel ≠ r.linkedPanel)

/-- Whether a panel id occurs in some group of a state (what
`utils.getTabGroupByLinkedPanel(panel, state)` reports when the host adapter
answers from the store's own state). -/
def panelSplitB (s : State) (p : String) : Bool :=
  s.tabGroups.any (fun kg => kg.2.tabs.any (fun t => t.linkedPanel = p))

/-- A host adapter whose group lookup faithfully reports membership in the
state it is handed. -/
def Faithful (u : Utils) : Prop :=
  ∀ p s, u.getTabGroupByLinkedPanel p s = panelSplitB s p

lemma _isValidTab_spec {u : Utils} {t : Tab} (h : _isValidTab u t = true) :
    0 < t.distribution ∧ t.distribution < 1 := by
  unfold _isValidTab at h
  split at h
  · cases h
  · rename_i hc
    simp only [Bool.or_eq_true, decide_eq_true_eq, Bool.not_eq_true', not_or] at hc
    constructor
    · have := hc.1.2.1
      simpa [not_le] using this
    · have := hc.1.2.2
      simpa [not_le] using this

lemma checkTabs_ok_spec {u : Utils} {s : State} :
    ∀ (tabs : List Tab) (i : Nat) (seen : List String) (sum₀ sum : ℚ),
      checkTabs u s tabs i seen sum₀ = Except.ok sum →
      (∀ t ∈ tabs, _isValidTab u t = true) ∧
      (∀ t ∈ tabs, u.getTabGroupByLinkedPanel t.linkedPanel s = false) ∧
      (tabs.map Tab.linkedPanel).Nodup ∧
      (∀ t ∈ tabs, t.linkedPanel ∉ seen) ∧
      sum = sum₀ + (tabs.map Tab.distribution).sum := by
  intro tabs
  induction tabs with
  | nil =>
    intro i seen sum₀ sum h
    simp only [checkTabs, Except.ok.injEq] at h
    simp [h]
  | cons t rest ih =>
    intro i seen sum₀ sum h
    unfold checkTabs at h
    split at h
    · cases h
    · split at h
      · cases h
      · split at h
        · cases h
        · split at h
          · cases h
          · rename_i hcol hvalid hgroup hseen
            obtain ⟨ihv, ihg, ihnd, ihseen, ihsum⟩ := ih _ _ _ _ h
            refine ⟨?_, ?_, ?_, ?_, ?_⟩
            · intro r hr
              rcases List.mem_cons.mp hr with hr | hr
              · subst hr
                simpa using hvalid
              · exact ihv r hr
            · intro r hr
              rcases List.mem_cons.mp hr with hr | hr
              · subst hr
                simpa using hgroup
              · exact ihg r hr
            · rw [List.map_cons, List.nodup_cons]
              refine ⟨?_, ihnd⟩
              intro hmem
              rcases List.mem_map.mp hmem with ⟨r, hr, hrp⟩
              have := ihseen r hr
              simp [hrp] at this
            · intro r hr
              rcases List.mem_cons.mp hr with hr | hr
              · subst hr
                intro hmem
                apply hseen
                simpa [List.contains, List.elem_eq_mem] using hmem
              · intro hmem
                have := ihseen r hr
                simp [hmem] at this
            · rw [ihsum, List.map_cons, List.sum_cons]
              ring

lemma setKey_fresh {m : List (String × TabGroup)} {k : String} {v : TabGroup}
    (h : ∀ p ∈ m, p.1 ≠ k) : setKey m k v = m ++ [(k, v)] := by
  unfold setKey
  rw [if_neg]
  simp only [List.any_eq_true, decide_eq_true_eq, not_exists, not_and]
  exact h

/-- Inversion of a successful `_addTabGroup`: the returned id is built from
the incoming counter, the counter advances by one, and the committed state
appends a well-formed group (whose panels the host adapter reported as not
yet split) under that id. -/
lemma _addTabGroup_ok_spec {u : Utils} {s : State} {cnt : Nat} {g : TabGroupSpec}
    {newId : String} {s' : State} {cnt' : Nat}
    (h : _addTabGroup u s cnt g = Except.ok (newId, s', cnt')) :
    newId = mkTabGroupId cnt ∧ cnt' = cnt + 1 ∧
    ∃ tg : TabGroup, tg.id = mkTabGroupId cnt ∧ tg.tabs = g.tabs ∧ GroupWF tg ∧
      (∀ t ∈ g.tabs, u.getTabGroupByLinkedPanel t.linkedPanel s = false) ∧
      s' = { s with tabGroups := setKey s.tabGroups (mkTabGroupId cnt) tg
                  , tabGroupIds := s.tabGroupIds ++ [mkTabGroupId cnt] } := by
  unfold _addTabGroup at h
  split at h
  · cases h
  · split at h
    · cases h
    · split at h
      · cases h
      · rename_i hlen
        split at h
        · cases h
        · rename_i sum hsum
          split at h
          · cases h
          · rename_i hsum1
            simp only [Except.ok.injEq, Prod.mk.injEq] at h
            obtain ⟨hid, hs, hcnt⟩ := h
            obtain ⟨hv, hg, hnd, _, hval⟩ := checkTabs_ok_spec g.tabs 0 [] 0 sum hsum
            refine ⟨hid.symm, hcnt.symm,
              { id := mkTabGroupId cnt, color := g.color, layout := g.layout
              , tabs := g.tabs }, rfl, rfl, ?_, hg, ?_⟩
            · refine ⟨by simpa using hlen, ?_, ?_, hnd⟩
              · intro t ht
                exact _isValidTab_spec (hv t ht)
              · have : sum = 1 := by simpa using hsum1
                rw [this] at hval
                linarith [hval]
            · exact hs.symm

/-- When the two proposed distributions do not sum to exactly 1,
`_addTabGroup` always fails (either at an earlier check or at the sum
check). -/
lemma _addTabGroup_sum_ne_one {u : Utils} {s : State} {cnt : Nat}
    {g : TabGroupSpec} {t₀ t₁ : Tab} (htabs : g.tabs = [t₀, t₁])
    (hsum : t₀.distribution + t₁.distribution ≠ 1) :
    ∃ e, _addTabGroup u s cnt g = Except.error e := by
  unfold _addTabGroup
  split
  · exact ⟨_, rfl⟩
  · split
    · exact ⟨_, rfl⟩
    · split
      · exact ⟨_, rfl⟩
      · split
        · exact ⟨_, rfl⟩
        · rename_i sum hok
          obtain ⟨_, _, _, _, hval⟩ := checkTabs_ok_spec g.tabs 0 [] 0 sum hok
          rw [htabs] at hval
          simp only [List.map_cons, List.map_nil, List.sum_cons, List.sum_nil] at hval
          rw [if_pos]
          · exact ⟨_, rfl⟩
          · rw [hval]
            intro hc
            apply hsum
            linarith

/-! ### The reachable-state invariant -/

/-- Invariant tying `_state` to `_tabGroupIdCount`: the key sequence of the
groups object equals `tabGroupIds`, every registered id was generated from a
counter value below the current one, the ids are duplicate-free, and every
stored group is well-formed. -/
structure StateInv (s : State) (cnt : Nat) : Prop where
  keys_eq : s.tabGroups.map Prod.fst = s.tabGroupIds
  ids_bounded : ∀ i ∈ s.tabGroupIds, ∃ n, n < cnt ∧ i = mkTabGroupId n
  ids_nodup : s.tabGroupIds.Nodup
  groups_wf : ∀ p ∈ s.tabGroups, GroupWF p.2

lemma stateInv_resetState (cnt : Nat) : StateInv _resetState cnt := by
  refine ⟨?_, ?_, ?_, ?_⟩ <;> simp [_resetState]

lemma stateInv_destroyedCleared (cnt : Nat) : StateInv destroyedClearedState cnt := by
  refine ⟨?_, ?_, ?_, ?_⟩ <;> simp [destroyedClearedState]

lemma mkId_not_mem {s : State} {cnt : Nat} (hinv : StateInv s cnt) :
    mkTabGroupId cnt ∉ s.tabGroupIds := by
  intro hmem
  obtain ⟨n, hn, he⟩ := hinv.ids_bounded _ hmem
  have := mkTabGroupId_inj he
  omega

lemma stateInv_mono {s : State} {cnt cnt' : Nat} (h : cnt ≤ cnt')
    (hinv : StateInv s cnt) : StateInv s cnt' := by
  refine ⟨hinv.keys_eq, ?_, hinv.ids_nodup, hinv.groups_wf⟩
  intro i hi
  obtain ⟨n, hn, he⟩ := hinv.ids_bounded i hi
  exact ⟨n, by omega, he⟩

lemma stateInv_keys_ne {s : State} {cnt : Nat} (hinv : StateInv s cnt) :
    ∀ p ∈ s.tabGroups, p.1 ≠ mkTabGroupId cnt := by
  intro p hp he
  apply mkId_not_mem hinv
  rw [← hinv.keys_eq]
  exact he ▸ List.mem_map_of_mem Prod.fst hp

lemma stateInv_add {u : Utils} {s : State} {cnt : Nat} {g : TabGroupSpec}
    {newId : String} {s' : State} {cnt' : Nat}
    (h : _addTabGroup u s cnt g = Except.ok (newId, s', cnt'))
    (hinv : StateInv s cnt) : StateInv s' cnt' := by
  obtain ⟨hid, hcnt, tg, htgid, htgtabs, hwf, hfresh, hs'⟩ := _addTabGroup_ok_spec h
  subst hs'
  have hnotmem : mkTabGroupId cnt ∉ s.tabGroupIds := mkId_not_mem hinv
  have hkeys : ∀ p ∈ s.tabGroups, p.1 ≠ mkTabGroupId cnt := stateInv_keys_ne hinv
  refine ⟨?_, ?_, ?_, ?_⟩
  · simp only [setKey_fresh hkeys, List.map_append, hinv.keys_eq, List.map_cons,
      List.map_nil]
  · intro i hi
    rcases List.mem_append.mp hi with hi | hi
    · obtain ⟨n, hn, he⟩ := hinv.ids_bounded i hi
      exact ⟨n, by omega, he⟩
    · simp only [List.mem_singleton] at hi
      exact ⟨cnt, by omega, hi⟩
  · rw [List.nodup_append]
    exact ⟨hinv.ids_nodup, List.nodup_singleton _, by
      intro i hi hmem
      simp only [List.mem_singleton] at hmem
      exact hnotmem (hmem ▸ hi)⟩
  · intro p hp
    rw [setKey_fresh hkeys] at hp
    rcases List.mem_append.mp hp with hp | hp
    · exact hinv.groups_wf p hp
    · simp only [List.mem_singleton] at hp
      subst hp
      exact hwf

lemma applyAction_stateInv {u : Utils} {l l' : DispatchState} {a : Action}
    (h : applyAction u l a = Except.ok l')
    (hinv : StateInv l.state l.tabGroupIdCount) :
    StateInv l'.state l'.tabGroupIdCount := by
  unfold applyAction at h
  split at h
  · cases h
  · split at h
    · split at h
      · injection h with h
        subst h
        exact ⟨hinv.keys_eq, hinv.ids_bounded, hinv.ids_nodup, hinv.groups_wf⟩
      · cases h
    · split at h
      · injection h with h
        subst h
        exact ⟨hinv.keys_eq, hinv.ids_bounded, hinv.ids_nodup, hinv.groups_wf⟩
      · cases h
    · injection h with h
      subst h
      exact ⟨hinv.keys_eq, hinv.ids_bounded, hinv.ids_nodup, hinv.groups_wf⟩
    · split at h
      · cases h
      · split at h
        · injection h with h
          subst h
          exact ⟨hinv.keys_eq, hinv.ids_bounded, hinv.ids_nodup, hinv.groups_wf⟩
        · injection h with h
          subst h
          exact hinv
    · split at h
      · cases h
      · injection h with h
        subst h
        exact ⟨hinv.keys_eq, hinv.ids_bounded, hinv.ids_nodup, hinv.groups_wf⟩
    · split at h
      · cases h
      · rename_i newId s₂ cnt₂ heq
        injection h with h
        subst h
        exact stateInv_add heq hinv
    · injection h with h
      subst h
      exact ⟨hinv.keys_eq, hinv.ids_bounded, hinv.ids_nodup, hinv.groups_wf⟩
    · injection h with h
      subst h
      exact ⟨hinv.keys_eq, hinv.ids_bounded, hinv.ids_nodup, hinv.groups_wf⟩
    · cases h

/-- Evolution of the `added` accumulator and the id counter over one action:
either both are untouched, or (exactly on a successful `add_tab_group`) the
id generated from the current counter is appended and the counter advances
by one. -/
lemma applyAction_counter_spec {u : Utils} {l l' : DispatchState} {a : Action}
    (h : applyAction u l a = Except.ok l') :
    (l'.added = l.added ∧ l'.tabGroupIdCount = l.tabGroupIdCount) ∨
    (l'.added = l.added ++ [mkTabGroupId l.tabGroupIdCount] ∧
      l'.tabGroupIdCount = l.tabGroupIdCount + 1) := by
  unfold applyAction at h
  split at h
  · cases h
  · split at h
    · split at h
      · injection h with h
        subst h
        exact Or.inl ⟨rfl, rfl⟩
      · cases h
    · split at h
      · injection h with h
        subst h
        exact Or.inl ⟨rfl, rfl⟩
      · cases h
    · injection h with h
      subst h
      exact Or.inl ⟨rfl, rfl⟩
    · split at h
      · cases h
      · split at h
        · injection h with h
          subst h
          exact Or.inl ⟨rfl, rfl⟩
        · injection h with h
          subst h
          exact Or.inl ⟨rfl, rfl⟩
    · split at h
      · cases h
      · injection h with h
        subst h
        exact Or.inl ⟨rfl, rfl⟩
    · split at h
      · cases h
      · rename_i newId s₂ cnt₂ heq
        injection h with h
        subst h
        obtain ⟨hid, hcnt, _⟩ := _addTabGroup_ok_spec heq
        exact Or.inr ⟨by rw [hid], by rw [hcnt]⟩
    · injection h with h
      subst h
      exact Or.inl ⟨rfl, rfl⟩
    · injection h with h
      subst h
      exact Or.inl ⟨rfl, rfl⟩
    · cases h

/-- Over a whole dispatch run (aborted or not), the `added` accumulator
grows by exactly the ids generated from the counter values it consumed, in
increasing counter order. -/
lemma runActions_added_spec {u : Utils} :
    ∀ (acts : List Action) (l : DispatchState),
      l.tabGroupIdCount ≤ (runActions u acts l).1.tabGroupIdCount ∧
      (runActions u acts l).1.added = l.added ++
        (List.range' l.tabGroupIdCount
          ((runActions u acts l).1.tabGroupIdCount - l.tabGroupIdCount)).map
          mkTabGroupId := by
  intro acts
  induction acts with
  | nil => intro l; simp [runActions]
  | cons a rest ih =>
    intro l
    unfold runActions
    cases hap : applyAction u l a with
    | error e => simp
    | ok next =>
      obtain ⟨ih₁, ih₂⟩ := ih next
      rcases applyAction_counter_spec hap with ⟨ha, hc⟩ | ⟨ha, hc⟩
      · simp only []
        refine ⟨by omega, ?_⟩
        rw [ih₂, ha, hc]
      · simp only []
        refine ⟨by omega, ?_⟩
        rw [ih₂, ha, hc]
        have hn : (runActions u rest next).1.tabGroupIdCount - l.tabGroupIdCount =
            ((runActions u rest next).1.tabGroupIdCount -
              (l.tabGroupIdCount + 1)) + 1 := by omega
        rw [hn, List.range'_succ, List.map_cons]
        simp

lemma runActions_stateInv {u : Utils} :
    ∀ (acts : List Action) (l : DispatchState),
      StateInv l.state l.tabGroupIdCount →
      StateInv (runActions u acts l).1.state (runActions u acts l).1.tabGroupIdCount := by
  intro acts
  induction acts with
  | nil => intro l h; simpa [runActions] using h
  | cons a rest ih =>
    intro l h
    unfold runActions
    cases hap : applyAction u l a with
    | error e => simpa using h
    | ok next => simpa using ih next (applyAction_stateInv hap h)

lemma panelsDisjoint_add {u : Utils} {s : State} {cnt : Nat} {g : TabGroupSpec}
    {newId : String} {s' : State} {cnt' : Nat} (hf : Faithful u)
    (h : _addTabGroup u s cnt g = Except.ok (newId, s', cnt'))
    (hinv : StateInv s cnt) (hd : PanelsDisjoint s.tabGroups) :
    PanelsDisjoint s'.tabGroups := by
  obtain ⟨hid, hcnt, tg, htgid, htgtabs, hwf, hfresh, hs'⟩ := _addTabGroup_ok_spec h
  subst hs'
  simp only [setKey_fresh (stateInv_keys_ne hinv)]
  rw [PanelsDisjoint, List.pairwise_append]
  refine ⟨hd, List.pairwise_singleton _ _, ?_⟩
  intro p hp q hq t ht r hr he
  simp only [List.mem_singleton] at hq
  subst hq
  have hr' : r ∈ g.tabs := htgtabs ▸ hr
  have hfr := hfresh r hr'
  rw [hf] at hfr
  have : panelSplitB s r.linkedPanel = true := by
    unfold panelSplitB
    rw [List.any_eq_true]
    refine ⟨p, hp, ?_⟩
    rw [List.any_eq_true]
    exact ⟨t, ht, by simp [he]⟩
  rw [this] at hfr
  cases hfr

lemma applyAction_disj {u : Utils} {l l' : DispatchState} {a : Action}
    (hf : Faithful u) (h : applyAction u l a = Except.ok l')
    (hinv : StateInv l.state l.tabGroupIdCount)
    (hd : PanelsDisjoint l.state.tabGroups) :
    PanelsDisjoint l'.state.tabGroups := by
  unfold applyAction at h
  split at h
  · cases h
  · split at h
    · split at h
      · injection h with h
        subst h
        exact hd
      · cases h
    · split at h
      · injection h with h
        subst h
        exact hd
      · cases h
    · injection h with h
      subst h
      exact hd
    · split at h
      · cases h
      · split at h
        · injection h with h
          subst h
          exact hd
        · injection h with h
          subst h
          exact hd
    · split at h
      · cases h
      · injection h with h
        subst h
        exact hd
    · split at h
      · cases h
      · rename_i newId s₂ cnt₂ heq
        injection h with h
        subst h
        exact panelsDisjoint_add hf heq hinv hd
    · injection h with h
      subst h
      exact hd
    · injection h with h
      subst h
      exact hd
    · cases h

lemma runActions_disj {u : Utils} (hf : Faithful u) :
    ∀ (acts : List Action) (l : DispatchState),
      StateInv l.state l.tabGroupIdCount →
      PanelsDisjoint l.state.tabGroups →
      PanelsDisjoint (runActions u acts l).1.state.tabGroups := by
  intro acts
  induction acts with
  | nil => intro l _ hd; simpa [runActions] using hd
  | cons a rest ih =>
    intro l h hd
    unfold runActions
    cases hap : applyAction u l a with
    | error e => simpa using hd
    | ok next =>
      simpa using ih next (applyAction_stateInv hap h) (applyAction_disj hf hap h hd)

/-! ### Store-level behavior of one `update` call -/

lemma update_failed_spec {st : Store} {acts : List Action} {l : DispatchState}
    (hr : runActions st.utils acts (initDispatch st) = (l, true)) :
    st.update acts =
      { store := { st with state := l.state, tabGroupIdCount := l.tabGroupIdCount }
      , notification := none
      , failed := true } := by
  unfold Store.update
  rw [hr]

lemma update_clean_spec {st : Store} {acts : List Action} {l : DispatchState}
    (hr : runActions st.utils acts (initDispatch st) = (l, false))
    (hd : l.dirty = false) :
    st.update acts =
      { store := { st with state := l.state, tabGroupIdCount := l.tabGroupIdCount }
      , notification := none
      , failed := false } := by
  unfold Store.update
  rw [hr]
  simp [hd]

lemma update_dirty_spec {st : Store} {acts : List Action} {l : DispatchState}
    (hr : runActions st.utils acts (initDispatch st) = (l, false))
    (hd : l.dirty = true) :
    st.update acts =
      { store := { st with
          state :=
            if l.state.status = Status.status_inactive then _resetState
            else if l.state.status = Status.status_destroyed then destroyedClearedState
            else l.state
        , tabGroupIdCount := l.tabGroupIdCount
        , listeners :=
            if l.state.status = Status.status_destroyed then none else st.listeners }
      , notification := some
          { recipients := st.listeners.getD []
          , added := l.added, removed := l.removed, updated := l.updated }
      , failed := false } := by
  unfold Store.update
  rw [hr]
  by_cases hin : l.state.status = Status.status_inactive
  · simp [hd, hin, _resetState]
  · by_cases hde : l.state.status = Status.status_destroyed
    · simp [hd, hin, hde, destroyedClearedState]
    · simp [hd, hin, hde]

lemma update_store_utils (st : Store) (acts : List Action) :
    (st.update acts).store.utils = st.utils := by
  rcases hr : runActions st.utils acts (initDispatch st) with ⟨l, b⟩
  cases b
  · by_cases hd : l.dirty
    · rw [update_dirty_spec hr hd]
    · rw [update_clean_spec hr (by simpa using hd)]
  · rw [update_failed_spec hr]

lemma update_counter_le (st : Store) (acts : List Action) :
    st.tabGroupIdCount ≤ (st.update acts).store.tabGroupIdCount := by
  rcases hr : runActions st.utils acts (initDispatch st) with ⟨l, b⟩
  have hmono := (@runActions_added_spec st.utils acts (initDispatch st)).1
  rw [hr] at hmono
  cases b
  · by_cases hd : l.dirty
    · rw [update_dirty_spec hr hd]
      exact hmono
    · rw [update_clean_spec hr (by simpa using hd)]
      exact hmono
  · rw [update_failed_spec hr]
    exact hmono

lemma subscribe_parts (st : Store) (x : Nat) :
    (st.subscribe x).state = st.state ∧
    (st.subscribe x).tabGroupIdCount = st.tabGroupIdCount ∧
    (st.subscribe x).utils = st.utils := by
  unfold Store.subscribe
  rcases hl : st.listeners with _ | ls
  · exact ⟨rfl, rfl, rfl⟩
  · dsimp only
    split <;> exact ⟨rfl, rfl, rfl⟩

lemma unsubscribe_parts (st : Store) (x : Nat) :
    (st.unsubscribe x).state = st.state ∧
    (st.unsubscribe x).tabGroupIdCount = st.tabGroupIdCount ∧
    (st.unsubscribe x).utils = st.utils := by
  unfold Store.unsubscribe
  rcases hl : st.listeners with _ | ls
  · exact ⟨rfl, rfl, rfl⟩
  · dsimp only
    split <;> exact ⟨rfl, rfl, rfl⟩

/-! ### Reachability -/

/-- All stores obtainable from a given one by any sequence of `update`,
`subscribe` and `unsubscribe` calls. -/
inductive ReachableFrom : Store → Store → Prop where
  | refl (st : Store) : ReachableFrom st st
  | update {st st' : Store} (acts : List Action) :
      ReachableFrom st st' → ReachableFrom st (st'.update acts).store
  | subscribe {st st' : Store} (listener : Nat) :
      ReachableFrom st st' → ReachableFrom st (st'.subscribe listener)
  | unsubscribe {st st' : Store} (listener : Nat) :
      ReachableFrom st st' → ReachableFrom st (st'.unsubscribe listener)

/-- The stores reachable from a freshly initialized store. -/
def Reachable (u : Utils) (st : Store) : Prop :=
  ReachableFrom (Store.init u) st

lemma reachableFrom_counter_le {st st' : Store} (h : ReachableFrom st st') :
    st.tabGroupIdCount ≤ st'.tabGroupIdCount := by
  induction h with
  | refl => exact Nat.le_refl _
  | update acts hr ih => exact le_trans ih (update_counter_le _ acts)
  | subscribe x hr ih => exact le_trans ih (le_of_eq (subscribe_parts _ x).2.1.symm)
  | unsubscribe x hr ih => exact le_trans ih (le_of_eq (unsubscribe_parts _ x).2.1.symm)

lemma reachableFrom_utils {st st' : Store} (h : ReachableFrom st st') :
    st'.utils = st.utils := by
  induction h with
  | refl => rfl
  | update acts hr ih => rw [update_store_utils, ih]
  | subscribe x hr ih => rw [(subscribe_parts _ x).2.2, ih]
  | unsubscribe x hr ih => rw [(unsubscribe_parts _ x).2.2, ih]

/-- Store-level invariant: the state/counter invariant plus duplicate-free
listeners. -/
structure StoreInv (st : Store) : Prop where
  state_inv : StateInv st.state st.tabGroupIdCount
  listeners_nodup : ∀ ls, st.listeners = some ls → ls.Nodup

lemma storeInv_init (u : Utils) : StoreInv (Store.init u) := by
  refine ⟨stateInv_resetState 0, ?_⟩
  intro ls h
  simp only [Store.init, Option.some.injEq] at h
  subst h
  exact List.nodup_nil

lemma storeInv_update {st : Store} (hs : StoreInv st) (acts : List Action) :
    StoreInv (st.update acts).store := by
  rcases hr : runActions st.utils acts (initDispatch st) with ⟨l, b⟩
  have hl : StateInv l.state l.tabGroupIdCount := by
    have := @runActions_stateInv st.utils acts (initDispatch st) hs.state_inv
    rwa [hr] at this
  cases b
  · by_cases hd : l.dirty
    · rw [update_dirty_spec hr hd]
      constructor
      · dsimp only
        by_cases hin : l.state.status = Status.status_inactive
        · simpa [hin] using stateInv_resetState l.tabGroupIdCount
        · by_cases hde : l.state.status = Status.status_destroyed
          · simpa [hin, hde] using stateInv_destroyedCleared l.tabGroupIdCount
          · simpa [hin, hde] using hl
      · dsimp only
        by_cases hde : l.state.status = Status.status_destroyed
        · simp [hde]
        · intro ls hls
          simp only [hde, if_neg, ite_false] at hls
          exact hs.listeners_nodup ls hls
    · rw [update_clean_spec hr (by simpa using hd)]
      exact ⟨hl, hs.listeners_nodup⟩
  · rw [update_failed_spec hr]
    exact ⟨hl, hs.listeners_nodup⟩

lemma storeInv_subscribe {st : Store} (hs : StoreInv st) (x : Nat) :
    StoreInv (st.subscribe x) := by
  unfold Store.subscribe
  rcases hl : st.listeners with _ | ls
  · exact hs
  · dsimp only
    split
    · rename_i hc
      refine ⟨hs.state_inv, ?_⟩
      intro ms hm
      simp only [Option.some.injEq] at hm
      subst hm
      rw [List.nodup_append]
      refine ⟨hs.listeners_nodup ls hl, List.nodup_singleton _, ?_⟩
      intro i hi hmem
      simp only [List.mem_singleton] at hmem
      subst hmem
      simp only [List.contains, Bool.not_eq_true', List.elem_eq_mem,
        decide_eq_false_iff_not] at hc
      exact hc hi
    · exact hs

lemma storeInv_unsubscribe {st : Store} (hs : StoreInv st) (x : Nat) :
    StoreInv (st.unsubscribe x) := by
  unfold Store.unsubscribe
  rcases hl : st.listeners with _ | ls
  · exact hs
  · dsimp only
    split
    · refine ⟨hs.state_inv, ?_⟩
      intro ms hm
      simp only [Option.some.injEq] at hm
      subst hm
      exact (hs.listeners_nodup ls hl).erase x
    · exact hs

lemma reachableFrom_storeInv {st st' : Store} (h : ReachableFrom st st')
    (hs : StoreInv st) : StoreInv st' := by
  induction h with
  | refl => exact hs
  | update acts hr ih => exact storeInv_update ih acts
  | subscribe x hr ih => exact storeInv_subscribe ih x
  | unsubscribe x hr ih => exact storeInv_unsubscribe ih x

lemma reachable_storeInv {u : Utils} {st : Store} (h : Reachable u st) :
    StoreInv st :=
  reachableFrom_storeInv h (storeInv_init u)

/-! ### Concrete fixtures used to exercise the theorems -/

/-- A host adapter recognizing no live tab. -/
def utilsNone : Utils :=
  { getTabByLinkedPanel := fun _ => false
  , getTabGroupByLinkedPanel := fun _ _ => false }

/-- A host adapter treating every panel id as a live tab and answering the
group lookup from the state it is handed. -/
def utilsAll : Utils :=
  { getTabByLinkedPanel := fun _ => true
  , getTabGroupByLinkedPanel := fun p s => panelSplitB s p }

lemma utilsAll_faithful : Faithful utilsAll := fun _ _ => rfl

/-- An activated store handed the all-recognizing adapter. -/
def stActive1 : Store := ((Store.init utilsAll).update [Action.set_active]).store

/-- A proposed group with distributions 0.5 / 0.5 on panels p1, p2. -/
def gGood : TabGroupSpec :=
  { color := "#ff0000", layout := "column_split"
  , tabs := [ { linkedPanel := "p1", col := 0, distribution := 0.5 }
            , { linkedPanel := "p2", col := 1, distribution := 0.5 } ] }

/-- A proposed group with distributions 0.5 / 0.5 on panels p3, p4. -/
def gGood2 : TabGroupSpec :=
  { color := "#00ff00", layout := "column_split"
  , tabs := [ { linkedPanel := "p3", col := 0, distribution := 0.5 }
            , { linkedPanel := "p4", col := 1, distribution := 0.5 } ] }

/-- A proposed group whose distributions sum to 0.9. -/
def gBadSum : TabGroupSpec :=
  { color := "#ff0000", layout := "column_split"
  , tabs := [ { linkedPanel := "p1", col := 0, distribution := 0.5 }
            , { linkedPanel := "p2", col := 1, distribution := 0.4 } ] }

/-! ### Claims -/

/-- C1, counterexample: destroy a freshly initialized store, then submit
`set_destroyed` again.  The claim says the redundant destroy succeeds; in
the code the destroyed-status guard at the top of the dispatch loop fires
before the `set_destroyed` case is reached, so the action fails (the call
aborts with no notification). -/
theorem C1_counterexample :
    (((Store.init utilsNone).update [Action.set_destroyed]).store.update
        [Action.set_destroyed]).failed = true ∧
    (((Store.init utilsNone).update [Action.set_destroyed]).store.update
        [Action.set_destroyed]).notification = none := by
  exact ⟨rfl, rfl⟩

/-- C1 (amended): every action submitted while the status is Destroyed fails
immediately, including `set_destroyed` itself — the redundant destroy is
rejected by the destroyed-status guard rather than treated as an idempotent
success.  The batch aborts at its first action: the store is unchanged and
no notification is emitted. -/
theorem C1_destroyed_all_actions_fail (st : Store) (a : Action)
    (acts : List Action) (h : st.state.status = Status.status_destroyed) :
    st.update (a :: acts) = { store := st, notification := none, failed := true } := by
  have hfail : applyAction st.utils (initDispatch st) a = Except.error
      "The current status is destroyed, please init again before updating any state" := by
    unfold applyAction
    dsimp only [initDispatch]
    rw [if_pos h]
  have hr : runActions st.utils (a :: acts) (initDispatch st) =
      (initDispatch st, true) := by
    unfold runActions
    rw [hfail]
  rw [update_failed_spec hr]
  rfl

theorem C1_destroyed_all_actions_fail_witness :
    (((Store.init utilsNone).update [Action.set_destroyed]).store.state.status =
      Status.status_destroyed) ∧
    ((Store.init utilsNone).update [Action.set_destroyed]).store.update
        [Action.update_window_width 800] =
      { store := ((Store.init utilsNone).update [Action.set_destroyed]).store
      , notification := none, failed := true } :=
  ⟨rfl, C1_destroyed_all_actions_fail _ _ _ rfl⟩

/-- C2, counterexample: an activated store with window width 500 and a
subscriber, destroyed by a batch whose second action fails.  After this
`update` call the status is Destroyed, yet the window width is still 500 and
the subscriber is still registered: the clearing only happens in the
end-of-batch dirty block, which an aborted batch never reaches. -/
theorem C2_counterexample :
    (((((Store.init utilsNone).update [Action.set_active]).store.update
        [Action.update_window_width 500]).store.subscribe 7).update
          [Action.set_destroyed, Action.set_active]).store.state.status =
      Status.status_destroyed ∧
    (((((Store.init utilsNone).update [Action.set_active]).store.update
        [Action.update_window_width 500]).store.subscribe 7).update
          [Action.set_destroyed, Action.set_active]).store.state.windowWidth = 500 ∧
    (((((Store.init utilsNone).update [Action.set_active]).store.update
        [Action.update_window_width 500]).store.subscribe 7).update
          [Action.set_destroyed, Action.set_active]).store.listeners = some [7] := by
  refine ⟨rfl, by decide, rfl⟩

/-- C2 (amended): after every `update` call that emits a notification and
leaves the status Destroyed, all state fields other than the status are
cleared and the listener set is removed.  (A call aborted by a failing
action after a `set_destroyed`, or a call that does not reach the dirty
block, can instead leave a Destroyed store with uncleared fields and
subscribers still registered.) -/
theorem C2_destroy_clears (st : Store) (acts : List Action) (nf : Notification)
    (h : (st.update acts).notification = some nf)
    (hd : (st.update acts).store.state.status = Status.status_destroyed) :
    (st.update acts).store.state = destroyedClearedState ∧
    (st.update acts).store.listeners = none := by
  rcases hr : runActions st.utils acts (initDispatch st) with ⟨l, b⟩
  cases b
  · by_cases hdy : l.dirty
    · rw [update_dirty_spec hr hdy] at hd ⊢
      dsimp only at hd ⊢
      by_cases hin : l.state.status = Status.status_inactive
      · rw [if_pos hin] at hd
        exact absurd hd (by simp [_resetState])
      · by_cases hde : l.state.status = Status.status_destroyed
        · simp [hin, hde]
        · rw [if_neg hin, if_neg hde] at hd
          exact absurd hd hde
    · rw [update_clean_spec hr (by simpa using hdy)] at h
      exact Option.noConfusion h
  · rw [update_failed_spec hr] at h
    exact Option.noConfusion h

theorem C2_destroy_clears_witness :
    ((Store.init utilsNone).update [Action.set_destroyed]).notification =
      some { recipients := [], added := [], removed := [], updated := [] } ∧
    ((Store.init utilsNone).update [Action.set_destroyed]).store.state.status =
      Status.status_destroyed ∧
    (((Store.init utilsNone).update [Action.set_destroyed]).store.state =
        destroyedClearedState ∧
      ((Store.init utilsNone).update [Action.set_destroyed]).store.listeners = none) :=
  ⟨rfl, rfl, C2_destroy_clears _ _ _ rfl rfl⟩

/-- C3, counterexample: an activated store whose selected panel is already
p1, with one subscriber.  Re-selecting p1 leaves the state exactly as it
was, yet the code sets `dirty = true` unconditionally in the
`update_selected_linkedPanel` case, so a notification is emitted to the
subscriber even though no observable state changed. -/
theorem C3_counterexample :
    ((((((Store.init utilsAll).update [Action.set_active]).store.update
        [Action.update_selected_linkedPanel "p1"]).store.subscribe 3).update
          [Action.update_selected_linkedPanel "p1"]).store.state =
      ((((Store.init utilsAll).update [Action.set_active]).store.update
        [Action.update_selected_linkedPanel "p1"]).store.subscribe 3).state) ∧
    (((((Store.init utilsAll).update [Action.set_active]).store.update
        [Action.update_selected_linkedPanel "p1"]).store.subscribe 3).update
          [Action.update_selected_linkedPanel "p1"]).notification =
      some { recipients := [3], added := [], removed := [], updated := [] } := by
  exact ⟨by decide, rfl⟩

/-- C3 (amended): on a reachable store, each subscriber is notified at most
once per `update` call (the recipients of the single notification are
pairwise distinct), and a batch consisting of `update_window_width` with the
current width emits no notification; but — contrary to the claim — the
notification is keyed to the `dirty` flag, not to an actual state change:
`update_selected_linkedPanel` re-selecting the already-selected panel marks
the batch dirty and notifies although the state is unchanged. -/
theorem C3_notify_once_and_width_noop (u : Utils) (st : Store)
    (h : Reachable u st) :
    (∀ (acts : List Action) (nf : Notification),
      (st.update acts).notification = some nf → nf.recipients.Nodup) ∧
    (st.update [Action.update_window_width st.state.windowWidth]).notification =
      none := by
  have hinv := reachable_storeInv h
  constructor
  · intro acts nf hn
    rcases hr : runActions st.utils acts (initDispatch st) with ⟨l, b⟩
    cases b
    · by_cases hdy : l.dirty
      · rw [update_dirty_spec hr hdy] at hn
        injection hn with hn
        subst hn
        dsimp only
        rcases hls : st.listeners with _ | ls
        · simp [hls]
        · simpa [hls] using hinv.listeners_nodup ls hls
      · rw [update_clean_spec hr (by simpa using hdy)] at hn
        exact Option.noConfusion hn
    · rw [update_failed_spec hr] at hn
      exact Option.noConfusion hn
  · by_cases hde : st.state.status = Status.status_destroyed
    · have hfail : applyAction st.utils (initDispatch st)
          (Action.update_window_width st.state.windowWidth) = Except.error
          "The current status is destroyed, please init again before updating any state" := by
        unfold applyAction
        dsimp only [initDispatch]
        rw [if_pos hde]
      have hr : runActions st.utils [Action.update_window_width st.state.windowWidth]
          (initDispatch st) = (initDispatch st, true) := by
        unfold runActions
        rw [hfail]
      rw [update_failed_spec hr]
    · by_cases hle : st.state.windowWidth ≤ 0
      · have hfail : applyAction st.utils (initDispatch st)
            (Action.update_window_width st.state.windowWidth) =
            Except.error "Invalid window width" := by
          unfold applyAction
          dsimp only [initDispatch]
          rw [if_neg hde, if_pos hle]
        have hr : runActions st.utils [Action.update_window_width st.state.windowWidth]
            (initDispatch st) = (initDispatch st, true) := by
          unfold runActions
          rw [hfail]
        rw [update_failed_spec hr]
      · have hok : applyAction st.utils (initDispatch st)
            (Action.update_window_width st.state.windowWidth) =
            Except.ok (initDispatch st) := by
          unfold applyAction
          dsimp only [initDispatch]
          rw [if_neg hde, if_neg hle, if_neg (by simp)]
        have hr : runActions st.utils [Action.update_window_width st.state.windowWidth]
            (initDispatch st) = (initDispatch st, false) := by
          unfold runActions
          rw [hok]
          rfl
        rw [update_clean_spec hr rfl]

theorem C3_notify_once_and_width_noop_witness :
    Reachable utilsNone (Store.init utilsNone) ∧
    ((∀ (acts : List Action) (nf : Notification),
        ((Store.init utilsNone).update acts).notification = some nf →
        nf.recipients.Nodup) ∧
      ((Store.init utilsNone).update
        [Action.update_window_width (Store.init utilsNone).state.windowWidth]).notification =
        none) :=
  ⟨ReachableFrom.refl _,
    C3_notify_once_and_width_noop utilsNone (Store.init utilsNone)
      (ReachableFrom.refl _)⟩

/-- C4, helper at the dispatch level: if the actions of `pre` all succeed
and `a` then fails, the loop over `pre ++ a :: post` stops at `a` with the
state accumulated over `pre` and the failure flag set — the actions of
`post` are never examined. -/
lemma runActions_fail_append {u : Utils} :
    ∀ (pre : List Action) (l₀ l : DispatchState) (a : Action) (post : List Action)
      (e : String),
      runActions u pre l₀ = (l, false) → applyAction u l a = Except.error e →
      runActions u (pre ++ a :: post) l₀ = (l, true) := by
  intro pre
  induction pre with
  | nil =>
    intro l₀ l a post e hp ha
    simp only [runActions, Prod.mk.injEq] at hp
    rw [List.nil_append]
    unfold runActions
    rw [hp.1, ha]
  | cons b rest ih =>
    intro l₀ l a post e hp ha
    rw [List.cons_append]
    unfold runActions at hp ⊢
    cases hap : applyAction u l₀ b with
    | error e₂ =>
      rw [hap] at hp
      simp at hp
    | ok next =>
      rw [hap] at hp
      exact ih next l a post e hp ha

/-- C4 (confirmed): when an action of the batch fails, the remaining actions
are not processed, no notification is emitted for that call, and the store's
state is exactly the state accumulated by the actions that succeeded before
the failing one (their mutations kept, nothing rolled back, and no
end-of-batch reset applied). -/
theorem C4_batch_fail_fast (st : Store) (pre : List Action) (a : Action)
    (post : List Action) (l : DispatchState) (e : String)
    (hpre : runActions st.utils pre (initDispatch st) = (l, false))
    (ha : applyAction st.utils l a = Except.error e) :
    st.update (pre ++ a :: post) =
      { store := { st with state := l.state, tabGroupIdCount := l.tabGroupIdCount }
      , notification := none
      , failed := true } :=
  update_failed_spec (runActions_fail_append pre (initDispatch st) l a post e hpre ha)

theorem C4_batch_fail_fast_witness :
    runActions (Store.init utilsNone).utils [] (initDispatch (Store.init utilsNone)) =
      (initDispatch (Store.init utilsNone), false) ∧
    applyAction (Store.init utilsNone).utils (initDispatch (Store.init utilsNone))
        Action.set_inactive =
      Except.error "Set inactive on the status that is not active" ∧
    (Store.init utilsNone).update [Action.set_inactive, Action.set_active] =
      { store := { Store.init utilsNone with
          state := (initDispatch (Store.init utilsNone)).state
        , tabGroupIdCount := (initDispatch (Store.init utilsNone)).tabGroupIdCount }
      , notification := none, failed := true } :=
  ⟨rfl, rfl, C4_batch_fail_fast (Store.init utilsNone) [] Action.set_inactive
    [Action.set_active] (initDispatch (Store.init utilsNone))
    "Set inactive on the status that is not active" rfl rfl⟩

/-- C5 (confirmed): whenever the two proposed tabs' distribution values do
not sum to exactly 1 (rational arithmetic, no tolerance), `_addTabGroup`
fails, and the single-action batch `[add_tab_group g]` leaves the store
completely unchanged and emits no notification. -/
theorem C5_add_sum_mismatch (st : Store) (g : TabGroupSpec) (t₀ t₁ : Tab)
    (htabs : g.tabs = [t₀, t₁])
    (hsum : t₀.distribution + t₁.distribution ≠ 1) :
    (∃ e, _addTabGroup st.utils st.state st.tabGroupIdCount g = Except.error e) ∧
    st.update [Action.add_tab_group g] =
      { store := st, notification := none, failed := true } := by
  obtain ⟨e, he⟩ :=
    @_addTabGroup_sum_ne_one st.utils st.state st.tabGroupIdCount g t₀ t₁ htabs hsum
  refine ⟨⟨e, he⟩, ?_⟩
  have hfail : ∃ e₂, applyAction st.utils (initDispatch st)
      (Action.add_tab_group g) = Except.error e₂ := by
    unfold applyAction
    dsimp only [initDispatch]
    by_cases hde : st.state.status = Status.status_destroyed
    · rw [if_pos hde]
      exact ⟨_, rfl⟩
    · rw [if_neg hde, he]
      exact ⟨_, rfl⟩
  obtain ⟨e₂, he₂⟩ := hfail
  have hr : runActions st.utils [Action.add_tab_group g] (initDispatch st) =
      (initDispatch st, true) := by
    unfold runActions
    rw [he₂]
  rw [update_failed_spec hr]
  rfl

theorem C5_add_sum_mismatch_witness :
    gBadSum.tabs = [ { linkedPanel := "p1", col := 0, distribution := 0.5 }
                   , { linkedPanel := "p2", col := 1, distribution := 0.4 } ] ∧
    ({ linkedPanel := "p1", col := 0, distribution := 0.5 } : Tab).distribution +
      ({ linkedPanel := "p2", col := 1, distribution := 0.4 } : Tab).distribution ≠ 1 ∧
    ((∃ e, _addTabGroup stActive1.utils stActive1.state stActive1.tabGroupIdCount
        gBadSum = Except.error e) ∧
      stActive1.update [Action.add_tab_group gBadSum] =
        { store := stActive1, notification := none, failed := true }) :=
  ⟨rfl, by decide,
    C5_add_sum_mismatch stActive1 gBadSum _ _ rfl (by decide)⟩

/-- C6, counterexample: an activated store with window width 500; the batch
[set_inactive, set_active] completes without failure — so its SetInactive
action succeeded — yet afterwards the window width is still 500: the reset
happens only in the end-of-batch block and only when the final status is
still Inactive, which a later action in the same batch can undo. -/
theorem C6_counterexample :
    ((((Store.init utilsNone).update [Action.set_active]).store.update
        [Action.update_window_width 500]).store.update
          [Action.set_inactive, Action.set_active]).failed = false ∧
    ((((Store.init utilsNone).update [Action.set_active]).store.update
        [Action.update_window_width 500]).store.update
          [Action.set_inactive, Action.set_active]).store.state.windowWidth = 500 ∧
    ((((Store.init utilsNone).update [Action.set_active]).store.update
        [Action.update_window_width 500]).store.update
          [Action.set_inactive, Action.set_active]).store.state.status =
      Status.status_active := by
  refine ⟨rfl, by decide, rfl⟩

/-- C6 (amended): `set_inactive` fails whenever the status is not Active and
sets the status to Inactive when it is; the reset of the remaining fields,
however, is performed at the end of the batch, only when the batch completes
without failure and the final status is still Inactive (then the whole state
equals the freshly reset one). -/
theorem C6_set_inactive_behavior :
    (∀ (u : Utils) (l : DispatchState),
      l.state.status ≠ Status.status_active →
      ∃ e, applyAction u l Action.set_inactive = Except.error e) ∧
    (∀ (u : Utils) (l : DispatchState),
      l.state.status = Status.status_active →
      applyAction u l Action.set_inactive = Except.ok { l with
        state := { l.state with status := Status.status_inactive }, dirty := true }) ∧
    (∀ (st : Store) (acts : List Action) (nf : Notification),
      (st.update acts).notification = some nf →
      (st.update acts).store.state.status = Status.status_inactive →
      (st.update acts).store.state = _resetState) := by
  refine ⟨?_, ?_, ?_⟩
  · intro u l h
    unfold applyAction
    by_cases hde : l.state.status = Status.status_destroyed
    · rw [if_pos hde]
      exact ⟨_, rfl⟩
    · rw [if_neg hde]
      dsimp only
      rw [if_neg h]
      exact ⟨_, rfl⟩
  · intro u l h
    unfold applyAction
    rw [if_neg (by rw [h]; intro hc; cases hc)]
    dsimp only
    rw [if_pos h]
  · intro st acts nf hn hst
    rcases hr : runActions st.utils acts (initDispatch st) with ⟨l, b⟩
    cases b
    · by_cases hdy : l.dirty
      · rw [update_dirty_spec hr hdy] at hst ⊢
        dsimp only at hst ⊢
        by_cases hin : l.state.status = Status.status_inactive
        · simp [hin]
        · by_cases hde : l.state.status = Status.status_destroyed
          · rw [if_neg hin, if_pos hde] at hst
            exact absurd hst (by simp [destroyedClearedState])
          · rw [if_neg hin, if_neg hde] at hst
            exact absurd hst hin
      · rw [update_clean_spec hr (by simpa using hdy)] at hn
        exact Option.noConfusion hn
    · rw [update_failed_spec hr] at hn
      exact Option.noConfusion hn

theorem C6_set_inactive_behavior_witness :
    ((initDispatch (Store.init utilsNone)).state.status ≠ Status.status_active ∧
      (∃ e, applyAction utilsNone (initDispatch (Store.init utilsNone))
        Action.set_inactive = Except.error e)) ∧
    ((initDispatch stActive1).state.status = Status.status_active ∧
      applyAction utilsAll (initDispatch stActive1) Action.set_inactive =
        Except.ok { initDispatch stActive1 with
          state := { (initDispatch stActive1).state with
            status := Status.status_inactive }, dirty := true }) ∧
    (((Store.init utilsNone).update [Action.set_active, Action.set_inactive]).notification =
        some { recipients := [], added := [], removed := [], updated := [] } ∧
      ((Store.init utilsNone).update
        [Action.set_active, Action.set_inactive]).store.state.status =
        Status.status_inactive ∧
      ((Store.init utilsNone).update
        [Action.set_active, Action.set_inactive]).store.state = _resetState) :=
  ⟨⟨by decide, C6_set_inactive_behavior.1 utilsNone _ (by decide)⟩,
   ⟨rfl, C6_set_inactive_behavior.2.1 utilsAll _ rfl⟩,
   ⟨rfl, rfl, C6_set_inactive_behavior.2.2 _ _ _ rfl rfl⟩⟩

/-- C7 (confirmed): in every reachable store, the group-order sequence and
the key sequence of the groups mapping are in bijection — same number of
entries, duplicate-free order, and the same ids occurring in both. -/
theorem C7_groupOrder_groups_bijection (u : Utils) (st : Store)
    (h : Reachable u st) :
    st.state.tabGroups.length = st.state.tabGroupIds.length ∧
    st.state.tabGroupIds.Nodup ∧
    (∀ i : String, (∃ g, (i, g) ∈ st.state.tabGroups) ↔ i ∈ st.state.tabGroupIds) := by
  have hinv := (reachable_storeInv h).state_inv
  refine ⟨?_, hinv.ids_nodup, ?_⟩
  · rw [← hinv.keys_eq, List.length_map]
  · intro i
    rw [← hinv.keys_eq]
    constructor
    · rintro ⟨g, hg⟩
      exact List.mem_map_of_mem Prod.fst hg
    · intro hi
      rcases List.mem_map.mp hi with ⟨p, hp, hpe⟩
      exact ⟨p.2, by rw [← hpe]; simpa using hp⟩

theorem C7_groupOrder_groups_bijection_witness :
    Reachable utilsAll
      ((stActive1.update [Action.add_tab_group gGood]).store) ∧
    ((stActive1.update [Action.add_tab_group gGood]).store.state.tabGroups.length =
        (stActive1.update [Action.add_tab_group gGood]).store.state.tabGroupIds.length ∧
      (stActive1.update [Action.add_tab_group gGood]).store.state.tabGroupIds.Nodup ∧
      (∀ i : String,
        (∃ g, (i, g) ∈ (stActive1.update [Action.add_tab_group gGood]).store.state.tabGroups) ↔
          i ∈ (stActive1.update [Action.add_tab_group gGood]).store.state.tabGroupIds)) :=
  ⟨ReachableFrom.update _ (ReachableFrom.update _ (ReachableFrom.refl _)),
    C7_groupOrder_groups_bijection utilsAll _
      (ReachableFrom.update _ (ReachableFrom.update _ (ReachableFrom.refl _)))⟩

/-- Store-level preservation of panel disjointness over one `update` call
(the host adapter faithfully answering the already-split lookup). -/
lemma storeInv_update_disj {st : Store} (hf : Faithful st.utils) (hs : StoreInv st)
    (hd : PanelsDisjoint st.state.tabGroups) (acts : List Action) :
    PanelsDisjoint (st.update acts).store.state.tabGroups := by
  rcases hr : runActions st.utils acts (initDispatch st) with ⟨l, b⟩
  have hld : PanelsDisjoint l.state.tabGroups := by
    have := runActions_disj hf acts (initDispatch st) hs.state_inv hd
    rwa [hr] at this
  cases b
  · by_cases hdy : l.dirty
    · rw [update_dirty_spec hr hdy]
      dsimp only
      by_cases hin : l.state.status = Status.status_inactive
      · simp [hin, _resetState, PanelsDisjoint]
      · by_cases hde : l.state.status = Status.status_destroyed
        · simp [hin, hde, destroyedClearedState, PanelsDisjoint]
        · simpa [hin, hde] using hld
    · rw [update_clean_spec hr (by simpa using hdy)]
      exact hld
  · rw [update_failed_spec hr]
    exact hld

lemma reachable_disj {u : Utils} {st : Store} (hf : Faithful u)
    (h : Reachable u st) : PanelsDisjoint st.state.tabGroups := by
  unfold Reachable at h
  induction h with
  | refl => simp [Store.init, _resetState, PanelsDisjoint]
  | update acts hr ih =>
    rename_i st'
    have hu : st'.utils = u := reachableFrom_utils hr
    exact storeInv_update_disj (hu ▸ hf)
      (reachableFrom_storeInv hr (storeInv_init u)) ih acts
  | subscribe x hr ih =>
    rename_i st'
    rw [(subscribe_parts st' x).1]
    exact ih
  | unsubscribe x hr ih =>
    rename_i st'
    rw [(unsubscribe_parts st' x).1]
    exact ih

/-- C8 (confirmed): in every reachable store — assuming the host adapter's
group lookup faithfully reports membership in the state it is handed — every
stored group holds exactly two tabs whose distributions lie strictly between
0 and 1 and sum to exactly 1, and no panel id belongs to two stored groups
simultaneously. -/
theorem C8_group_invariants (u : Utils) (st : Store) (hf : Faithful u)
    (h : Reachable u st) :
    (∀ p ∈ st.state.tabGroups,
      p.2.tabs.length = 2 ∧
      (∀ t ∈ p.2.tabs, 0 < t.distribution ∧ t.distribution < 1) ∧
      (p.2.tabs.map Tab.distribution).sum = 1) ∧
    st.state.tabGroups.Pairwise
      (fun a b => ∀ t ∈ a.2.tabs, ∀ r ∈ b.2.tabs, t.linkedPanel ≠ r.linkedPanel) := by
  constructor
  · intro p hp
    obtain ⟨h1, h2, h3, _⟩ := (reachable_storeInv h).state_inv.groups_wf p hp
    exact ⟨h1, h2, h3⟩
  · exact reachable_disj hf h

theorem C8_group_invariants_witness :
    Faithful utilsAll ∧
    Reachable utilsAll ((stActive1.update [Action.add_tab_group gGood]).store) ∧
    ((∀ p ∈ (stActive1.update [Action.add_tab_group gGood]).store.state.tabGroups,
        p.2.tabs.length = 2 ∧
        (∀ t ∈ p.2.tabs, 0 < t.distribution ∧ t.distribution < 1) ∧
        (p.2.tabs.map Tab.distribution).sum = 1) ∧
      (stActive1.update [Action.add_tab_group gGood]).store.state.tabGroups.Pairwise
        (fun a b => ∀ t ∈ a.2.tabs, ∀ r ∈ b.2.tabs, t.linkedPanel ≠ r.linkedPanel)) :=
  ⟨utilsAll_faithful,
   ReachableFrom.update _ (ReachableFrom.update _ (ReachableFrom.refl _)),
   C8_group_invariants utilsAll _ utilsAll_faithful
     (ReachableFrom.update _ (ReachableFrom.update _ (ReachableFrom.refl _)))⟩

/-- The `added` list of a notification consists exactly of the ids generated
from the consecutive counter values consumed by the call. -/
lemma update_notification_added {st : Store} {acts : List Action}
    {nf : Notification} (h : (st.update acts).notification = some nf) :
    nf.added = (List.range' st.tabGroupIdCount
      ((st.update acts).store.tabGroupIdCount - st.tabGroupIdCount)).map
      mkTabGroupId := by
  rcases hr : runActions st.utils acts (initDispatch st) with ⟨l, b⟩
  have hsp := @runActions_added_spec st.utils acts (initDispatch st)
  rw [hr] at hsp
  obtain ⟨hle, hadded⟩ := hsp
  cases b
  · by_cases hdy : l.dirty
    · rw [update_dirty_spec hr hdy] at h ⊢
      injection h with h
      subst h
      dsimp only
      simpa using hadded
    · rw [update_clean_spec hr (by simpa using hdy)] at h
      exact Option.noConfusion h
  · rw [update_failed_spec hr] at h
    exact Option.noConfusion h

/-- C9 (confirmed): every successful `add_tab_group` assigns an id of the
form fixed-text-plus-counter; within one `update` call the `added` ids are
exactly the ids of the consecutive counter values consumed (strictly
increasing), and an id reported added by an earlier call can never be
reported added by any later call of the same store lifetime — the counter
only grows and is never re-consumed, even after group removal or a
`set_inactive` reset. -/
theorem C9_ids_monotone_never_reused (u : Utils) (st stMid : Store)
    (acts₁ acts₂ : List Action) (nf₁ nf₂ : Notification)
    (h : Reachable u st)
    (h₁ : (st.update acts₁).notification = some nf₁)
    (hmid : ReachableFrom (st.update acts₁).store stMid)
    (h₂ : (stMid.update acts₂).notification = some nf₂) :
    nf₁.added = (List.range' st.tabGroupIdCount
      ((st.update acts₁).store.tabGroupIdCount - st.tabGroupIdCount)).map
      mkTabGroupId ∧
    (∀ i ∈ nf₁.added, i ∉ nf₂.added) := by
  have e₁ := update_notification_added h₁
  have e₂ := update_notification_added h₂
  refine ⟨e₁, ?_⟩
  intro i hi₁ hi₂
  rw [e₁] at hi₁
  rw [e₂] at hi₂
  rcases List.mem_map.mp hi₁ with ⟨n, hn, rfl⟩
  rcases List.mem_map.mp hi₂ with ⟨m, hm, hme⟩
  have hnm : m = n := mkTabGroupId_inj hme
  have hb₁ := (List.mem_range'_1.mp hn).2
  have hb₂ := (List.mem_range'_1.mp hm).1
  have hmono : (st.update acts₁).store.tabGroupIdCount ≤ stMid.tabGroupIdCount :=
    reachableFrom_counter_le hmid
  have hc₁ := update_counter_le st acts₁
  omega

theorem C9_ids_monotone_never_reused_witness :
    Reachable utilsAll stActive1 ∧
    (stActive1.update [Action.add_tab_group gGood]).notification =
      some { recipients := [], added := ["tabsplit-tab-group-id-0"]
           , removed := [], updated := [] } ∧
    ReachableFrom (stActive1.update [Action.add_tab_group gGood]).store
      (stActive1.update [Action.add_tab_group gGood]).store ∧
    ((stActive1.update [Action.add_tab_group gGood]).store.update
        [Action.add_tab_group gGood2]).notification =
      some { recipients := [], added := ["tabsplit-tab-group-id-1"]
           , removed := [], updated := [] } ∧
    (({ recipients := [], added := ["tabsplit-tab-group-id-0"]
      , removed := [], updated := [] } : Notification).added =
        (List.range' stActive1.tabGroupIdCount
          ((stActive1.update [Action.add_tab_group gGood]).store.tabGroupIdCount -
            stActive1.tabGroupIdCount)).map mkTabGroupId ∧
      (∀ i ∈ ({ recipients := [], added := ["tabsplit-tab-group-id-0"]
              , removed := [], updated := [] } : Notification).added,
        i ∉ ({ recipients := [], added := ["tabsplit-tab-group-id-1"]
             , removed := [], updated := [] } : Notification).added)) :=
  ⟨ReachableFrom.update _ (ReachableFrom.refl _), by decide,
   ReachableFrom.refl _, by decide,
   C9_ids_monotone_never_reused utilsAll stActive1
     (stActive1.update [Action.add_tab_group gGood]).store
     [Action.add_tab_group gGood] [Action.add_tab_group gGood2]
     { recipients := [], added := ["tabsplit-tab-group-id-0"]
     , removed := [], updated := [] }
     { recipients := [], added := ["tabsplit-tab-group-id-1"]
     , removed := [], updated := [] }
     (ReachableFrom.update _ (ReachableFrom.refl _)) (by decide)
     (ReachableFrom.refl _) (by decide)⟩

/-- C10, counterexample: a reachable store left Inactive with window width
500 (via a batch whose second action failed).  Submitting
`remove_tab_group` — status not Destroyed — succeeds, but the state does not
stay unchanged: the action marks the batch dirty, so the end-of-batch block
runs `_resetState()` on the Inactive store and the window width drops back
to its default. -/
theorem C10_counterexample :
    (((Store.init utilsNone).update
        [Action.update_window_width 500, Action.unknown_type "z"]).store.state.status =
      Status.status_inactive ∧
    ((Store.init utilsNone).update
        [Action.update_window_width 500, Action.unknown_type "z"]).store.state.windowWidth =
      500) ∧
    ((((Store.init utilsNone).update
        [Action.update_window_width 500, Action.unknown_type "z"]).store.update
          [Action.remove_tab_group "g"]).failed = false ∧
      (((Store.init utilsNone).update
        [Action.update_window_width 500, Action.unknown_type "z"]).store.update
          [Action.remove_tab_group "g"]).notification =
        some { recipients := [], added := [], removed := ["g"], updated := [] } ∧
      (((Store.init utilsNone).update
        [Action.update_window_width 500, Action.unknown_type "z"]).store.update
          [Action.remove_tab_group "g"]).store.state.windowWidth = -1) := by
  refine ⟨⟨rfl, by decide⟩, rfl, rfl, by decide⟩

/-- C10 (amended): a `remove_tab_group` submitted while the status is not
Destroyed always succeeds, with no existence check on the id; it marks the
batch dirty and the notification's removed list carries exactly the given
id.  The action itself mutates nothing — but since the batch ends dirty, the
end-of-update reset still applies: with status Active every state field is
unchanged, while with status Inactive the whole state is reset to its
defaults. -/
theorem C10_remove_tab_group_spec (st : Store) (i : String)
    (h : st.state.status ≠ Status.status_destroyed) :
    st.update [Action.remove_tab_group i] =
      { store := { st with
          state := if st.state.status = Status.status_inactive then _resetState
                   else st.state }
      , notification := some
          { recipients := st.listeners.getD []
          , added := [], removed := [i], updated := [] }
      , failed := false } := by
  have hap : applyAction st.utils (initDispatch st) (Action.remove_tab_group i) =
      Except.ok { initDispatch st with removed := [i], dirty := true } := by
    unfold applyAction
    dsimp only [initDispatch]
    rw [if_neg h]
    rfl
  have hr : runActions st.utils [Action.remove_tab_group i] (initDispatch st) =
      ({ initDispatch st with removed := [i], dirty := true }, false) := by
    unfold runActions
    rw [hap]
    rfl
  rw [update_dirty_spec hr rfl]
  dsimp only [initDispatch]
  by_cases hin : st.state.status = Status.status_inactive
  · simp [hin]
  · simp [hin, h]

theorem C10_remove_tab_group_spec_witness :
    stActive1.state.status ≠ Status.status_destroyed ∧
    stActive1.update [Action.remove_tab_group "no-such-group"] =
      { store := { stActive1 with
          state := if stActive1.state.status = Status.status_inactive then _resetState
                   else stActive1.state }
      , notification := some
          { recipients := stActive1.listeners.getD []
          , added := [], removed := ["no-such-group"], updated := [] }
      , failed := false } :=
  ⟨by decide, C10_remove_tab_group_spec stActive1 "no-such-group" (by decide)⟩

end TabSplit
